import Mathlib

/-!
Verification of the portfolio/position valuation and backtest-metrics logic of
the gse-signal-insight dashboard against its natural-language specification.

The embedding works over exact rationals. Every arithmetic operation the
TypeScript source performs on JavaScript numbers is either plain field
arithmetic (embedded as the corresponding operation on `ℚ`), `Math.round` /
`Math.floor` (embedded as Mathlib's `round` / `Int.floor`, which agree with the
JS functions on the values involved), or an operation that can produce a
non-finite IEEE value (division by zero, `Math.pow` with a non-finite operand).
For the latter the embedding uses `JSVal`, a rational extended with the three
non-finite double values, with the case analysis of the ECMAScript
specification written out; `Math.pow` on finite operands with a nonzero
exponent is a host primitive and is passed in as an oracle parameter
`pf : ℚ → ℚ → ℚ` (a double is a rational, so an oracle of this type can
represent the host's behaviour exactly), in the same way the random source
`Math.random` is passed in as `rng : ℕ → ℚ` giving the value of the n-th call.
-/

namespace GSE

/-- A JavaScript number as observed by the valuation code: a finite value
(doubles are rationals) or one of the three non-finite values NaN, +Infinity,
-Infinity. -/
inductive JSVal where
  | num (q : ℚ)
  | posInf
  | negInf
  | nan
deriving DecidableEq

/-- A `JSVal` is finite exactly when it is an ordinary number. -/
def JSVal.isFinite : JSVal → Bool
  | .num _ => true
  | _ => false

/-- JavaScript division of two finite numbers: division by zero yields
+Infinity, -Infinity or NaN according to the sign of the numerator
(ECMAScript Number::divide with a +0 denominator). -/
def jsDiv (a b : ℚ) : JSVal :=
  if b = 0 then (if 0 < a then .posInf else if a < 0 then .negInf else .nan)
  else .num (a / b)

/-- JavaScript multiplication of a (possibly non-finite) number by a finite
constant. -/
def jsMulC : JSVal → ℚ → JSVal
  | .num a, c => .num (a * c)
  | .posInf, c => if 0 < c then .posInf else if c < 0 then .negInf else .nan
  | .negInf, c => if 0 < c then .negInf else if c < 0 then .posInf else .nan
  | .nan, _ => .nan

/-- JavaScript subtraction of a finite constant from a (possibly non-finite)
number: the non-finite values absorb the subtraction. -/
def jsSubC : JSVal → ℚ → JSVal
  | .num a, c => .num (a - c)
  | v, _ => v

/-- `Math.pow` on finite operands. The ECMAScript specification fixes the
result 1 for a zero exponent; every other finite-finite case is delegated to
the host oracle `pf`. -/
def jsPowFin (pf : ℚ → ℚ → ℚ) (b e : ℚ) : ℚ :=
  if e = 0 then 1 else pf b e

/-- `Math.pow` on possibly non-finite operands, following the case analysis of
ECMAScript Number::exponentiate. Only the finite-base/finite-nonzero-exponent
case is host-dependent and goes through the oracle `pf`. -/
def jsPow (pf : ℚ → ℚ → ℚ) : JSVal → JSVal → JSVal
  | _, .num 0 => .num 1
  | .num b, .num e => .num (jsPowFin pf b e)
  | .posInf, .num e => if 0 < e then .posInf else .num 0
  | .negInf, .num e =>
      if 0 < e then (if e.den = 1 ∧ e.num % 2 ≠ 0 then .negInf else .posInf)
      else .num 0
  | .nan, .num _ => .nan
  | .num b, .posInf =>
      if 1 < |b| then .posInf else if |b| < 1 then .num 0 else .nan
  | .posInf, .posInf => .posInf
  | .negInf, .posInf => .posInf
  | .nan, .posInf => .nan
  | .num b, .negInf =>
      if 1 < |b| then .num 0 else if |b| < 1 then .posInf else .nan
  | .posInf, .negInf => .num 0
  | .negInf, .negInf => .num 0
  | .nan, .negInf => .nan
  | _, .nan => .nan

/-- A portfolio position joined with its stock quote, as used by
src/src/pages/Portfolio.tsx (interface PortfolioPosition) and the watchlist
page (src/unnamed/part_001, interface Portfolio). The nested
`stock.current_price` is flattened into the record; no other stock field is
read by the valuation code. -/
structure Position where
  shares : ℚ
  avgCost : ℚ
  currentPrice : ℚ
deriving DecidableEq

/-- The error taxonomy named by the specification (section 7) for the
valuation operations. The source never constructs either error. -/
inductive ValuationError where
  | invalidQuote
  | divisionByZero
deriving DecidableEq

/-- The per-position figures computed inline in the positions.map of
src/src/pages/Portfolio.tsx lines 231-235. -/
structure PositionMetrics where
  currentValue : ℚ
  costBasis : ℚ
  gainLoss : ℚ
  gainLossPercent : JSVal
deriving DecidableEq

/-- Per-position valuation from src/src/pages/Portfolio.tsx lines 232-235:
currentValue = shares * current_price, costBasis = shares * avg_cost,
gainLoss = currentValue - costBasis,
gainLossPercent = (gainLoss / costBasis) * 100 with no guard on costBasis. -/
def positionMetrics (sh ac cp : ℚ) : PositionMetrics :=
  { currentValue := sh * cp
    costBasis := sh * ac
    gainLoss := sh * cp - sh * ac
    gainLossPercent := jsMulC (jsDiv (sh * cp - sh * ac) (sh * ac)) 100 }

/-- The same per-position computation viewed through its failure channel: the
TypeScript map callback contains no guard and no throw, so the embedding
always returns ok. The error codomain makes claims about expected failure
behaviour (InvalidQuote, DivisionByZero) directly statable. -/
def positionMetricsE (sh ac cp : ℚ) : Except ValuationError PositionMetrics :=
  .ok (positionMetrics sh ac cp)

/-- The per-position figures computed inline in portfolioStocks.map of the
watchlist page, src/unnamed/part_001 lines 188-191 (marketValue, costBasis,
pnl, returnPercent). -/
structure WatchlistRowMetrics where
  marketValue : ℚ
  costBasis : ℚ
  pnl : ℚ
  returnPercent : JSVal
deriving DecidableEq

/-- Watchlist-page per-row valuation, src/unnamed/part_001 lines 188-191:
the same unguarded formulas as the Portfolio page. -/
def watchlistRowMetrics (sh ac cp : ℚ) : WatchlistRowMetrics :=
  { marketValue := sh * cp
    costBasis := sh * ac
    pnl := sh * cp - sh * ac
    returnPercent := jsMulC (jsDiv (sh * cp - sh * ac) (sh * ac)) 100 }

/-- The portfolio summary computed by calculateMetrics in
src/src/pages/Portfolio.tsx lines 133-140. -/
structure PortfolioMetrics where
  totalValue : ℚ
  totalCost : ℚ
  totalGainLoss : ℚ
  totalGainLossPercent : ℚ
deriving DecidableEq

/-- calculateMetrics from src/src/pages/Portfolio.tsx lines 133-140:
totalValue and totalCost are reduce-sums over the positions, totalGainLoss is
their difference, and totalGainLossPercent divides only under the
totalCost > 0 guard (else 0), so it stays within the finite rationals. -/
def calculateMetrics (positions : List Position) : PortfolioMetrics :=
  let totalValue := positions.foldl (fun sum pos => sum + pos.shares * pos.currentPrice) 0
  let totalCost := positions.foldl (fun sum pos => sum + pos.shares * pos.avgCost) 0
  let totalGainLoss := totalValue - totalCost
  { totalValue := totalValue
    totalCost := totalCost
    totalGainLoss := totalGainLoss
    totalGainLossPercent := if 0 < totalCost then totalGainLoss / totalCost * 100 else 0 }

/-- calculatePortfolioValue from the watchlist page, src/unnamed/part_001
lines 88-92: reduce over shares * current_price. -/
def calculatePortfolioValue (portfolioStocks : List Position) : ℚ :=
  portfolioStocks.foldl (fun total position => total + position.shares * position.currentPrice) 0

/-- calculatePortfolioCost from the watchlist page, src/unnamed/part_001
lines 94-98: reduce over shares * avg_cost. -/
def calculatePortfolioCost (portfolioStocks : List Position) : ℚ :=
  portfolioStocks.foldl (fun total position => total + position.shares * position.avgCost) 0

/-- portfolioReturn from the watchlist page, src/unnamed/part_001 lines
100-103: guarded percentage of the portfolio P&L over its cost. -/
def portfolioReturn (portfolioStocks : List Position) : ℚ :=
  let portfolioValue := calculatePortfolioValue portfolioStocks
  let portfolioCost := calculatePortfolioCost portfolioStocks
  let portfolioPnL := portfolioValue - portfolioCost
  if 0 < portfolioCost then portfolioPnL / portfolioCost * 100 else 0

/-- winners from the watchlist page, src/unnamed/part_001 line 105: the
number of positions whose current price strictly exceeds the average cost. -/
def winners (portfolioStocks : List Position) : ℕ :=
  (portfolioStocks.filter (fun p => p.avgCost < p.currentPrice)).length

/-- losers from the watchlist page, src/unnamed/part_001 line 106: the number
of positions whose current price is strictly below the average cost. -/
def losers (portfolioStocks : List Position) : ℕ :=
  (portfolioStocks.filter (fun p => p.currentPrice < p.avgCost)).length

/-- Ties: positions whose current price equals the average cost. The source
computes no such count; this is the auxiliary notion the claim uses for the
positions counted by neither winners nor losers. -/
def tiesCount (portfolioStocks : List Position) : ℕ :=
  (portfolioStocks.filter (fun p => p.currentPrice = p.avgCost)).length

/-- Modelled on the words of specification section 4.1 for comparison with
the code: computePositionMetrics rejects a non-positive current price with
InvalidQuote, divides only under the cost_basis > 0 guard and otherwise fails
with DivisionByZero. -/
structure SpecPositionMetrics where
  marketValue : ℚ
  costBasis : ℚ
  gainLoss : ℚ
  gainLossPercent : ℚ
deriving DecidableEq

/-- Modelled on the words of specification section 4.1 (Operation:
computePositionMetrics); used only to compare the specified behaviour with
the code's positionMetrics. -/
def specComputePositionMetrics (sh ac cp : ℚ) : Except ValuationError SpecPositionMetrics :=
  if cp ≤ 0 then .error .invalidQuote
  else
    let marketValue := sh * cp
    let costBasis := sh * ac
    let gainLoss := marketValue - costBasis
    if 0 < costBasis then
      .ok { marketValue := marketValue
            costBasis := costBasis
            gainLoss := gainLoss
            gainLossPercent := gainLoss / costBasis * 100 }
    else .error .divisionByZero

/-- The backtest parameter struct from src/unnamed/part_001 lines 266-279
(interface BacktestParams). Dates are modelled as whole-day offsets from an
epoch: the source stores date-only strings, for which the millisecond
difference divided by 86,400,000 and floored (line 443) is exactly the
difference of the day numbers. The strategy, risk-management and rebalance
fields are carried but never read by the simulation, as in the source. -/
structure BacktestParams where
  name : String
  startDate : ℤ
  endDate : ℤ
  initialCapital : ℚ
  strategy : String
  stocks : List String
  stopLoss : ℚ
  takeProfit : ℚ
  maxPositionSize : ℚ
  rebalanceFrequency : String
deriving DecidableEq

/-- One entry of performanceData, src/unnamed/part_001 lines 452-456. The
source stores the date as an ISO string; the embedding keeps the day number
new Date(start + i days) denotes. portfolioValue and benchmark are the
Math.round results (integers). -/
structure PerfPoint where
  date : ℤ
  portfolioValue : ℤ
  benchmark : ℤ
deriving DecidableEq

/-- total_days as computed on src/unnamed/part_001 line 443:
Math.floor((end - start) / 86400000) for day-granular dates is the difference
of the day numbers. -/
def backtestDays (p : BacktestParams) : ℤ :=
  p.endDate - p.startDate

/-- Number of iterations of the loop for (let i = 0; i <= days; i += 7) on
src/unnamed/part_001 line 447: none for negative days, otherwise
floor(days / 7) + 1. -/
def weeklyCount (days : ℤ) : ℕ :=
  if days < 0 then 0 else days.toNat / 7 + 1

/-- The body of the weekly loop, src/unnamed/part_001 lines 447-457,
unrolled as a recursion on the remaining iteration count: iteration k (with
i = 7 * k) draws rng k, multiplies the running portfolio value by
1 + (rng k - 0.5) * 0.04 BEFORE pushing the data point, and pushes
benchmark = Math.round(initialCapital * Math.pow(1.08, i / 365)). -/
def simLoop (pf : ℚ → ℚ → ℚ) (rng : ℕ → ℚ) (ic : ℚ) (startDate : ℤ) :
    ℕ → ℕ → ℚ → List PerfPoint
  | _, 0, _ => []
  | k, c + 1, pv =>
      let randomReturn := (rng k - 0.5) * 0.04
      let pv2 := pv * (1 + randomReturn)
      { date := startDate + 7 * (k : ℤ)
        portfolioValue := round pv2
        benchmark := round (ic * jsPowFin pf 1.08 ((7 * (k : ℚ)) / 365)) } ::
        simLoop pf rng ic startDate (k + 1) c pv2

/-- The full performanceData array built by generateMockBacktestResults,
src/unnamed/part_001 lines 444-457. -/
def perfSeries (pf : ℚ → ℚ → ℚ) (rng : ℕ → ℚ) (p : BacktestParams) : List PerfPoint :=
  simLoop pf rng p.initialCapital p.startDate 0 (weeklyCount (backtestDays p)) p.initialCapital

/-- The results struct of src/unnamed/part_001 lines 463-474, flattened. The
source applies toFixed to totalReturn, annualizedReturn, sharpeRatio,
maxDrawdown and winRate before storing them; the embedding keeps the numeric
values the strings are formatted from (string formatting is presentation and
no claim depends on it). totalReturn and annualizedReturn can be non-finite
doubles (division by a zero capital, exponent 365/0) and are therefore
JSVal. -/
structure BacktestResults where
  performanceData : List PerfPoint
  totalReturn : JSVal
  annualizedReturn : JSVal
  sharpeRatio : ℚ
  maxDrawdown : ℚ
  winRate : ℚ
  totalTrades : ℤ
  finalValue : ℤ
deriving DecidableEq

/-- The metrics block of generateMockBacktestResults, src/unnamed/part_001
lines 459-474, given the already-built series and its last point. The random
draws continue where the loop stopped: the loop consumed draws 0..n-1, so
sharpeRatio, maxDrawdown, winRate and totalTrades consume draws n..n+3 in
source order. -/
def mkBacktestResults (pf : ℚ → ℚ → ℚ) (rng : ℕ → ℚ) (p : BacktestParams)
    (pts : List PerfPoint) (lastPt : PerfPoint) : BacktestResults :=
  let days := backtestDays p
  let n := weeklyCount days
  let finalValue : ℚ := (lastPt.portfolioValue : ℚ)
  { performanceData := pts
    totalReturn := jsMulC (jsDiv (finalValue - p.initialCapital) p.initialCapital) 100
    annualizedReturn :=
      jsMulC (jsSubC (jsPow pf (jsDiv finalValue p.initialCapital)
        (jsDiv 365 (days : ℚ))) 1) 100
    sharpeRatio := 1.2 + rng n * 0.8
    maxDrawdown := rng (n + 1) * 15 + 5
    winRate := 55 + rng (n + 2) * 20
    totalTrades := ⌊rng (n + 3) * 50⌋ + 20
    finalValue := round finalValue }

/-- generateMockBacktestResults from src/unnamed/part_001 lines 442-475.
When the date range is negative the loop body never runs and the source
dereferences performanceData[-1], a TypeError; the embedding returns none in
that case and some results otherwise. -/
def generateMockBacktestResults (pf : ℚ → ℚ → ℚ) (rng : ℕ → ℚ)
    (p : BacktestParams) : Option BacktestResults :=
  match (perfSeries pf rng p).getLast? with
  | none => none
  | some lastPt => some (mkBacktestResults pf rng p (perfSeries pf rng p) lastPt)

/-- The validation failures runBacktest (src/unnamed/part_001 lines 367-385)
can report before doing anything, plus the crash of the deferred callback on
an empty series (dereferencing the last element of an empty array). The
source has no other failure: in particular no date-range or capital
validation exists. -/
inductive RunError where
  | noUserOrName
  | noStocksSelected
  | emptySeries
deriving DecidableEq

/-- The database writes runBacktest performs against the backtests table:
the insert with status running (src/unnamed/part_001 lines 389-398) and the
deferred update to status completed with results (lines 403-415). -/
inductive BacktestMutation where
  | insertRunning (name : String) (params : BacktestParams)
  | updateCompleted (results : BacktestResults)
deriving DecidableEq

/-- The backtest row as the client leaves it after a successful run. -/
structure BacktestRow where
  name : String
  status : String
  results : Option BacktestResults
deriving DecidableEq

/-- runBacktest from src/unnamed/part_001 lines 367-440: reject a missing
user or empty name first, then an empty stock selection, and only then insert
the running record, compute the mock results and update the record to
completed. The first component lists the database mutations performed, in
order; the second is the outcome. -/
def runBacktest (pf : ℚ → ℚ → ℚ) (rng : ℕ → ℚ) (hasUser : Bool)
    (p : BacktestParams) : List BacktestMutation × Except RunError BacktestRow :=
  if hasUser = false ∨ p.name = "" then ([], .error .noUserOrName)
  else if p.stocks = [] then ([], .error .noStocksSelected)
  else
    match generateMockBacktestResults pf rng p with
    | some res =>
        ([.insertRunning p.name p, .updateCompleted res],
         .ok { name := p.name, status := "completed", results := some res })
    | none => ([.insertRunning p.name p], .error .emptySeries)

/-- A stored alert, from the Row type of the alerts table
(src/unnamed/part_002 lines 17-29) as read by the alerts views. -/
structure AlertRow where
  id : String
  trigger_type : String
  tier : String
  price : ℚ
  rationale : String
  is_read : Bool
  is_dismissed : Bool
deriving DecidableEq

/-- markAsRead: the alerts page (src/unnamed/part_000 lines 62-86) and
AlertsManager (src/src/components/AlertsManager.tsx lines 68-83) both issue
update set is_read = true where id = alertId against the alerts table and
apply the identical map to their local list; this map is both of those. -/
def markAsReadUpdate (alerts : List AlertRow) (alertId : String) : List AlertRow :=
  alerts.map (fun alert => if alert.id = alertId then { alert with is_read := true } else alert)

/-- dismissAlert on the alerts page (src/unnamed/part_000 lines 88-112):
update set is_dismissed = true where id = alertId, and the same map applied
to the local list. This map is also the table-level semantics of the
dismissAlert update in AlertsManager.tsx lines 87-92. -/
def dismissAlertUpdate (alerts : List AlertRow) (alertId : String) : List AlertRow :=
  alerts.map (fun alert => if alert.id = alertId then { alert with is_dismissed := true } else alert)

/-- The local-state effect of dismissAlert in AlertsManager
(src/src/components/AlertsManager.tsx line 94): the dismissed alert is
removed from the component list by filter, not flagged. -/
def alertsManagerDismissLocal (alerts : List AlertRow) (alertId : String) : List AlertRow :=
  alerts.filter (fun alert => alert.id ≠ alertId)

/-- getChangePercentage, defined identically in the stock table
(src/unnamed/part_002 lines 616-618), the stock-detail page
(src/unnamed/part_000 lines 415-417) and inline as changePercent in
MiniPriceChart (src/unnamed/part_003 line 14):
((current - previous) / previous) * 100 with no guard on previous. -/
def getChangePercentage (current previous : ℚ) : JSVal :=
  jsMulC (jsDiv (current - previous) previous) 100

/-- A host pow oracle for concrete runs whose claims do not depend on the
value Math.pow returns on finite operands with nonzero exponent. -/
def pfZero : ℚ → ℚ → ℚ := fun _ _ => 0

/-- A host pow oracle for the benchmark counterexample. The only finite
nonzero-exponent call the run makes is Math.pow(1.08, 7/365); the oracle
value 1.0015 agrees with the true 1.08 ^ (7/365) = 1.001476... to four
decimals, and any host value in [1, 1.08] produces the same rounded
benchmark. -/
def pfBench : ℚ → ℚ → ℚ := fun _ _ => 1.0015

/-- Concrete parameters shaped like the page defaults (src/unnamed/part_001
lines 313-326), narrowed to a one-week range with one stock selected so the
run passes the source's validation. -/
def pWeek : BacktestParams :=
  { name := "test", startDate := 0, endDate := 7, initialCapital := 100000,
    strategy := "buy_and_hold", stocks := ["s1"], stopLoss := 10, takeProfit := 20,
    maxPositionSize := 20, rebalanceFrequency := "monthly" }

/-- pWeek with start date equal to end date. -/
def pSameDay : BacktestParams := { pWeek with endDate := 0 }

/-- pWeek with an empty name and an empty stock selection. -/
def pNoName : BacktestParams := { pWeek with name := "", stocks := [] }

/-- pWeek with an empty stock selection but a nonempty name. -/
def pNoStocks : BacktestParams := { pWeek with stocks := [] }

/-- pWeek with an initial capital of 1. -/
def pSmallCap : BacktestParams := { pWeek with initialCapital := 1 }

/-- A concrete alert used by the dismiss counterexample and witnesses. -/
def exAlert : AlertRow :=
  { id := "a1", trigger_type := "volume_spike", tier := "A", price := 10,
    rationale := "r", is_read := false, is_dismissed := false }

lemma foldl_add_eq_sum (f : Position → ℚ) :
    ∀ (l : List Position) (init : ℚ),
      l.foldl (fun s p => s + f p) init = init + (l.map f).sum := by
  intro l
  induction l with
  | nil => intro init; simp
  | cons p t ih =>
      intro init
      simp only [List.foldl_cons, List.map_cons, List.sum_cons, ih]
      ring

/-- Claim C1: for every list of positions, calculateMetrics returns
totalValue equal to the sum of shares times current price, totalCost equal to
the sum of shares times average cost, totalGainLoss equal to their
difference, and totalGainLossPercent equal to totalGainLoss / totalCost * 100
exactly when totalCost > 0 and 0 otherwise (so 0 whenever totalCost is not
positive); the empty list yields all four outputs 0 with no error, and the
watchlist page's calculatePortfolioValue / calculatePortfolioCost compute the
same totals. -/
theorem claim_C1_aggregatePortfolio (positions : List Position) :
    (calculateMetrics positions).totalValue =
        (positions.map (fun p => p.shares * p.currentPrice)).sum ∧
    (calculateMetrics positions).totalCost =
        (positions.map (fun p => p.shares * p.avgCost)).sum ∧
    (calculateMetrics positions).totalGainLoss =
        (calculateMetrics positions).totalValue - (calculateMetrics positions).totalCost ∧
    (calculateMetrics positions).totalGainLossPercent =
        (if 0 < (calculateMetrics positions).totalCost then
          (calculateMetrics positions).totalGainLoss / (calculateMetrics positions).totalCost * 100
        else 0) ∧
    calculateMetrics [] =
        { totalValue := 0, totalCost := 0, totalGainLoss := 0, totalGainLossPercent := 0 } ∧
    calculatePortfolioValue positions = (calculateMetrics positions).totalValue ∧
    calculatePortfolioCost positions = (calculateMetrics positions).totalCost := by
  refine ⟨?_, ?_, rfl, rfl, by simp [calculateMetrics], rfl, rfl⟩
  · simp [calculateMetrics, foldl_add_eq_sum (fun p => p.shares * p.currentPrice)]
  · simp [calculateMetrics, foldl_add_eq_sum (fun p => p.shares * p.avgCost)]

lemma winners_losers_ties_length (portfolioStocks : List Position) :
    winners portfolioStocks + losers portfolioStocks + tiesCount portfolioStocks =
      portfolioStocks.length := by
  induction portfolioStocks with
  | nil => simp [winners, losers, tiesCount]
  | cons p t ih =>
      simp only [winners, losers, tiesCount, List.filter_cons, List.length_cons] at ih ⊢
      rcases lt_trichotomy p.avgCost p.currentPrice with h | h | h
      · have h1 : ¬ p.currentPrice < p.avgCost := lt_asymm h
        have h2 : ¬ p.currentPrice = p.avgCost := ne_of_gt h
        simp [h, h1, h2]
        omega
      · have h1 : ¬ p.avgCost < p.currentPrice := by rw [h]; exact lt_irrefl _
        have h2 : ¬ p.currentPrice < p.avgCost := by rw [h]; exact lt_irrefl _
        have h3 : p.currentPrice = p.avgCost := h.symm
        simp [h1, h2, h3]
        omega
      · have h1 : ¬ p.avgCost < p.currentPrice := lt_asymm h
        have h2 : ¬ p.currentPrice = p.avgCost := ne_of_lt h
        simp [h, h1, h2]
        omega

/-- Claim C8: for every list of positions, winners counts exactly the
positions with current price above average cost, losers exactly those below,
a position at exactly its average cost is counted by neither, winners plus
losers plus ties is the number of positions, and winners plus losers is at
most the number of positions. -/
theorem claim_C8_winnersLosers (portfolioStocks : List Position) :
    winners portfolioStocks =
        (portfolioStocks.filter (fun p => p.avgCost < p.currentPrice)).length ∧
    losers portfolioStocks =
        (portfolioStocks.filter (fun p => p.currentPrice < p.avgCost)).length ∧
    winners portfolioStocks + losers portfolioStocks + tiesCount portfolioStocks =
        portfolioStocks.length ∧
    winners portfolioStocks + losers portfolioStocks ≤ portfolioStocks.length := by
  refine ⟨rfl, rfl, winners_losers_ties_length portfolioStocks, ?_⟩
  have h := winners_losers_ties_length portfolioStocks
  omega


/-- Claim C2 as stated is false: the per-position percentage in
src/src/pages/Portfolio.tsx line 235 has no guard, so at shares = 4,
avg_cost = 0, current_price = 5 (cost basis 0) the computation does not fail
with DivisionByZero; it returns metrics whose percentage is the JavaScript
Infinity from 20 / 0. -/
theorem claim_C2_counterexample :
    (4 : ℚ) * 0 = 0 ∧
    positionMetricsE 4 0 5 ≠ Except.error ValuationError.divisionByZero ∧
    (positionMetrics 4 0 5).gainLossPercent = JSVal.posInf := by
  refine ⟨by norm_num, by simp [positionMetricsE], ?_⟩
  norm_num [positionMetrics, jsDiv, jsMulC]

/-- Claim C2 amended: the per-position gain/loss percentage is computed
without any guard; when the cost basis is nonzero it equals
(gain_loss / cost_basis) * 100, and when the cost basis is zero the division
by zero produces a non-finite JavaScript value (Infinity or NaN) instead of a
DivisionByZero failure — the computation never fails. The watchlist page's
returnPercent (src/unnamed/part_001 line 191) is the same computation. -/
theorem claim_C2_amended (sh ac cp : ℚ) :
    positionMetricsE sh ac cp = Except.ok (positionMetrics sh ac cp) ∧
    (sh * ac ≠ 0 → (positionMetrics sh ac cp).gainLossPercent =
        JSVal.num ((sh * cp - sh * ac) / (sh * ac) * 100)) ∧
    (sh * ac = 0 → (positionMetrics sh ac cp).gainLossPercent.isFinite = false) ∧
    (watchlistRowMetrics sh ac cp).returnPercent = (positionMetrics sh ac cp).gainLossPercent := by
  refine ⟨rfl, ?_, ?_, rfl⟩
  · intro h
    simp [positionMetrics, jsDiv, jsMulC, h]
  · intro h
    simp only [positionMetrics, h]
    simp only [jsDiv, if_pos rfl]
    split_ifs <;> simp [jsMulC, JSVal.isFinite]

/-- Witness for claim C2's amended theorem at concrete inputs. -/
theorem claim_C2_amended_witness :
    (positionMetrics 8 2 3).gainLossPercent = JSVal.num 50 ∧
    (positionMetrics 4 0 5).gainLossPercent.isFinite = false := by
  constructor
  · have h := (claim_C2_amended 8 2 3).2.1 (by norm_num)
    rw [h]
    norm_num
  · exact (claim_C2_amended 4 0 5).2.2.1 (by norm_num)

/-- Claim C3 as stated is false: there is no InvalidQuote validation in the
code. At shares = 2, avg_cost = 1, current_price = -1 the specified operation
fails with InvalidQuote, but the code (src/src/pages/Portfolio.tsx lines
231-235) returns full market-value/gain-loss results. -/
theorem claim_C3_counterexample :
    ((-1 : ℚ) ≤ 0) ∧
    specComputePositionMetrics 2 1 (-1) = Except.error ValuationError.invalidQuote ∧
    positionMetricsE 2 1 (-1) = Except.ok
      { currentValue := -2, costBasis := 2, gainLoss := -4,
        gainLossPercent := JSVal.num (-200) } := by
  refine ⟨by norm_num, by norm_num [specComputePositionMetrics], ?_⟩
  norm_num [positionMetricsE, positionMetrics, jsDiv, jsMulC]

/-- Claim C3 amended: the code performs no quote validation at all — for
every input, including a non-positive current price, it returns the
market-value/cost-basis/gain-loss results; on the spec's valid domain
(all three inputs positive) those results agree with the specified
computePositionMetrics. -/
theorem claim_C3_amended (sh ac cp : ℚ) :
    positionMetricsE sh ac cp = Except.ok (positionMetrics sh ac cp) ∧
    (positionMetrics sh ac cp).currentValue = sh * cp ∧
    (positionMetrics sh ac cp).costBasis = sh * ac ∧
    (positionMetrics sh ac cp).gainLoss = sh * cp - sh * ac ∧
    (0 < sh → 0 < ac → 0 < cp →
      specComputePositionMetrics sh ac cp = Except.ok
        { marketValue := sh * cp, costBasis := sh * ac, gainLoss := sh * cp - sh * ac,
          gainLossPercent := (sh * cp - sh * ac) / (sh * ac) * 100 } ∧
      (positionMetrics sh ac cp).gainLossPercent =
        JSVal.num ((sh * cp - sh * ac) / (sh * ac) * 100)) := by
  refine ⟨rfl, rfl, rfl, rfl, ?_⟩
  intro hsh hac hcp
  have hcb : 0 < sh * ac := mul_pos hsh hac
  constructor
  · simp [specComputePositionMetrics, not_le.mpr hcp, hcb]
  · simp [positionMetrics, jsDiv, jsMulC, ne_of_gt hcb]

/-- Witness for claim C3's amended theorem at shares 10, avg_cost 5,
price 6. -/
theorem claim_C3_amended_witness :
    specComputePositionMetrics 10 5 6 = Except.ok
      { marketValue := 60, costBasis := 50, gainLoss := 10, gainLossPercent := 20 } ∧
    (positionMetrics 10 5 6).gainLossPercent = JSVal.num 20 := by
  have h := ((claim_C3_amended 10 5 6).2.2.2.2) (by norm_num) (by norm_num) (by norm_num)
  constructor
  · rw [h.1]
    norm_num
  · rw [h.2]
    norm_num

/-- Claim C10: getChangePercentage divides by previous_close with no guard:
for every nonzero previous close it returns the finite percentage
((current - previous) / previous) * 100, and whenever previous_close is zero
the result is a non-finite JavaScript value, so the stock-display interface
shows no finite change value. -/
theorem claim_C10_changePercentage (current previous : ℚ) :
    (previous ≠ 0 → getChangePercentage current previous =
        JSVal.num ((current - previous) / previous * 100)) ∧
    (previous = 0 → (getChangePercentage current previous).isFinite = false) := by
  constructor
  · intro h
    simp [getChangePercentage, jsDiv, jsMulC, h]
  · intro h
    simp only [getChangePercentage, h]
    simp only [jsDiv, if_pos rfl]
    split_ifs <;> simp [jsMulC, JSVal.isFinite]

/-- Witness for claim C10 at (110, 100) and at a zero previous close. -/
theorem claim_C10_changePercentage_witness :
    getChangePercentage 110 100 = JSVal.num 10 ∧
    (getChangePercentage 5 0).isFinite = false := by
  constructor
  · have h := (claim_C10_changePercentage 110 100).1 (by norm_num)
    rw [h]
    norm_num
  · exact (claim_C10_changePercentage 5 0).2 rfl

lemma perfSeries_eq_cons (pf : ℚ → ℚ → ℚ) (rng : ℕ → ℚ) (p : BacktestParams)
    (h : 0 ≤ backtestDays p) :
    perfSeries pf rng p =
      { date := p.startDate,
        portfolioValue := round (p.initialCapital * (1 + (rng 0 - 0.5) * 0.04)),
        benchmark := round p.initialCapital } ::
        simLoop pf rng p.initialCapital p.startDate 1 ((backtestDays p).toNat / 7)
          (p.initialCapital * (1 + (rng 0 - 0.5) * 0.04)) := by
  have hc : weeklyCount (backtestDays p) = (backtestDays p).toNat / 7 + 1 :=
    if_neg (not_lt.mpr h)
  simp [perfSeries, hc, simLoop, jsPowFin]

lemma generateMock_eq_some (pf : ℚ → ℚ → ℚ) (rng : ℕ → ℚ) (p : BacktestParams)
    {y : PerfPoint} (hy : (perfSeries pf rng p).getLast? = some y) :
    generateMockBacktestResults pf rng p =
      some (mkBacktestResults pf rng p (perfSeries pf rng p) y) := by
  simp only [generateMockBacktestResults, hy]

lemma genMock_head_of_nonneg (pf : ℚ → ℚ → ℚ) (rng : ℕ → ℚ) (p : BacktestParams)
    (h : 0 ≤ backtestDays p) :
    (generateMockBacktestResults pf rng p).bind (fun r => r.performanceData.head?) =
      some { date := p.startDate,
             portfolioValue := round (p.initialCapital * (1 + (rng 0 - 0.5) * 0.04)),
             benchmark := round p.initialCapital } := by
  have hps := perfSeries_eq_cons pf rng p h
  have hne : perfSeries pf rng p ≠ [] := by rw [hps]; simp
  obtain ⟨y, hy⟩ := Option.isSome_iff_exists.mp (List.getLast?_isSome.mpr hne)
  rw [generateMock_eq_some pf rng p hy]
  show (perfSeries pf rng p).head? = _
  rw [hps]
  rfl

lemma runBacktest_zero_days (pf : ℚ → ℚ → ℚ) (rng : ℕ → ℚ) (p : BacktestParams)
    (hname : p.name ≠ "") (hstocks : p.stocks ≠ []) (hdays : backtestDays p = 0) :
    ∃ res : BacktestResults,
      runBacktest pf rng true p =
        ([BacktestMutation.insertRunning p.name p, BacktestMutation.updateCompleted res],
          Except.ok { name := p.name, status := "completed", results := some res }) ∧
      res.performanceData =
        [{ date := p.startDate,
           portfolioValue := round (p.initialCapital * (1 + (rng 0 - 0.5) * 0.04)),
           benchmark := round p.initialCapital }] := by
  have h0 : 0 ≤ backtestDays p := le_of_eq hdays.symm
  have hps := perfSeries_eq_cons pf rng p h0
  have htail : (backtestDays p).toNat / 7 = 0 := by rw [hdays]; rfl
  rw [htail] at hps
  have hps2 : perfSeries pf rng p =
      [{ date := p.startDate,
         portfolioValue := round (p.initialCapital * (1 + (rng 0 - 0.5) * 0.04)),
         benchmark := round p.initialCapital }] := by
    rw [hps]; rfl
  have hne : perfSeries pf rng p ≠ [] := by rw [hps2]; simp
  obtain ⟨y, hy⟩ := Option.isSome_iff_exists.mp (List.getLast?_isSome.mpr hne)
  have hmock := generateMock_eq_some pf rng p hy
  refine ⟨mkBacktestResults pf rng p (perfSeries pf rng p) y, ?_, ?_⟩
  · simp [runBacktest, hname, hstocks, hmock]
  · show perfSeries pf rng p = _
    exact hps2

/-- Claim C4 as stated is false: the loop multiplies the running portfolio
value by the first random factor before pushing the first data point
(src/unnamed/part_001 lines 449-454), so with a valid one-week parameter set
and a random source that always returns 0.75 the first point is
round(100000 * 1.01) = 101000, not the initial capital 100000. -/
theorem claim_C4_counterexample :
    pWeek.startDate < pWeek.endDate ∧ 0 < pWeek.initialCapital ∧ pWeek.stocks ≠ [] ∧
    (generateMockBacktestResults pfZero (fun _ => 3/4) pWeek).bind
        (fun r => r.performanceData.head?) =
      some { date := 0, portfolioValue := 101000, benchmark := 100000 } ∧
    ((101000 : ℚ) ≠ pWeek.initialCapital) := by
  refine ⟨by norm_num [pWeek], by norm_num [pWeek], by simp [pWeek], ?_, by norm_num [pWeek]⟩
  have h := genMock_head_of_nonneg pfZero (fun _ => 3/4) pWeek
    (by norm_num [backtestDays, pWeek])
  rw [h]
  norm_num [pWeek, round_eq]

/-- Claim C4 amended: whenever the date range is non-negative (so the series
is non-empty), the first data point of the performance series has
portfolio_value round(initial_capital * (1 + (r - 0.5) * 0.04)) where r is
the first random draw — the first random step is applied before the first
point is recorded, so the first point equals the initial capital only when
the draw happens to be 0.5 or the rounding collapses the difference. Its
benchmark is round(initial_capital), since 1.08 ^ 0 = 1. -/
theorem claim_C4_amended (pf : ℚ → ℚ → ℚ) (rng : ℕ → ℚ) (p : BacktestParams)
    (h : 0 ≤ backtestDays p) :
    (generateMockBacktestResults pf rng p).bind (fun r => r.performanceData.head?) =
      some { date := p.startDate,
             portfolioValue := round (p.initialCapital * (1 + (rng 0 - 0.5) * 0.04)),
             benchmark := round p.initialCapital } :=
  genMock_head_of_nonneg pf rng p h

/-- Witness for claim C4's amended theorem on the concrete one-week run. -/
theorem claim_C4_amended_witness :
    (generateMockBacktestResults pfZero (fun _ => 3/4) pWeek).bind
        (fun r => r.performanceData.head?) =
      some { date := pWeek.startDate,
             portfolioValue := round (pWeek.initialCapital * (1 + ((3 : ℚ)/4 - 0.5) * 0.04)),
             benchmark := round pWeek.initialCapital } :=
  claim_C4_amended pfZero (fun _ => 3/4) pWeek (by norm_num [backtestDays, pWeek])

/-- Claim C5 as stated is false: runBacktest (src/unnamed/part_001 lines
367-385) validates only the name and the stock selection — there is no
date-range validation and no InvalidDateRange error anywhere in the code.
With start_date = end_date (total_days = 0) the run succeeds: it returns ok
with status completed rather than failing. -/
theorem claim_C5_counterexample :
    pSameDay.startDate = pSameDay.endDate ∧
    (runBacktest pfZero (fun _ => 0.5) true pSameDay).2.isOk = true ∧
    (runBacktest pfZero (fun _ => 0.5) true pSameDay).2.toOption.map
        (fun row => row.status) = some "completed" := by
  obtain ⟨res, h1, h2⟩ := runBacktest_zero_days pfZero (fun _ => 0.5) pSameDay
    (by simp [pSameDay, pWeek]) (by simp [pSameDay, pWeek])
    (by norm_num [backtestDays, pSameDay, pWeek])
  exact ⟨by norm_num [pSameDay, pWeek], by rw [h1]; rfl, by rw [h1]; rfl⟩

/-- Claim C5 amended: with start_date = end_date and the name and stock list
non-empty, simulateBacktest performs both mutations and completes normally:
it inserts the running record, updates it to completed, and produces a
results struct whose performance series is the single point recorded at the
start date. No InvalidDateRange failure exists in the code. -/
theorem claim_C5_amended (pf : ℚ → ℚ → ℚ) (rng : ℕ → ℚ) (p : BacktestParams)
    (hname : p.name ≠ "") (hstocks : p.stocks ≠ []) (hdates : p.startDate = p.endDate) :
    ∃ res : BacktestResults,
      runBacktest pf rng true p =
        ([BacktestMutation.insertRunning p.name p, BacktestMutation.updateCompleted res],
          Except.ok { name := p.name, status := "completed", results := some res }) ∧
      res.performanceData =
        [{ date := p.startDate,
           portfolioValue := round (p.initialCapital * (1 + (rng 0 - 0.5) * 0.04)),
           benchmark := round p.initialCapital }] :=
  runBacktest_zero_days pf rng p hname hstocks (by simp [backtestDays, hdates])

/-- Witness for claim C5's amended theorem on the concrete same-day run. -/
theorem claim_C5_amended_witness :
    ∃ res : BacktestResults,
      runBacktest pfZero (fun _ => 0.5) true pSameDay =
        ([BacktestMutation.insertRunning pSameDay.name pSameDay,
          BacktestMutation.updateCompleted res],
          Except.ok { name := pSameDay.name, status := "completed", results := some res }) ∧
      res.performanceData =
        [{ date := pSameDay.startDate,
           portfolioValue := round (pSameDay.initialCapital * (1 + ((0.5 : ℚ) - 0.5) * 0.04)),
           benchmark := round pSameDay.initialCapital }] :=
  claim_C5_amended pfZero (fun _ => 0.5) pSameDay
    (by simp [pSameDay, pWeek]) (by simp [pSameDay, pWeek])
    (by norm_num [pSameDay, pWeek])

/-- Claim C6 as stated is false in one corner: the name/user check runs
before the stock check (src/unnamed/part_001 lines 368-384), so a parameter
set with an empty stock list AND an empty name fails with the missing-name
error, not NoStocksSelected. No mutation happens either way. -/
theorem claim_C6_counterexample :
    pNoName.stocks = [] ∧
    runBacktest pfZero (fun _ => 0.5) true pNoName = ([], Except.error RunError.noUserOrName) ∧
    RunError.noUserOrName ≠ RunError.noStocksSelected := by
  refine ⟨by simp [pNoName, pWeek], ?_, by decide⟩
  simp [runBacktest, pNoName, pWeek]

/-- Claim C6 amended: with an empty stock list no database mutation is ever
performed, and provided a user is present and the name is non-empty the run
fails with exactly the NoStocksSelected error before any mutation. -/
theorem claim_C6_amended (pf : ℚ → ℚ → ℚ) (rng : ℕ → ℚ) (hasUser : Bool)
    (p : BacktestParams) (hstocks : p.stocks = []) :
    (runBacktest pf rng hasUser p).1 = [] ∧
    (hasUser = true → p.name ≠ "" →
      runBacktest pf rng hasUser p = ([], Except.error RunError.noStocksSelected)) := by
  by_cases hA : hasUser = false ∨ p.name = ""
  · constructor
    · simp [runBacktest, if_pos hA]
    · intro hu hn
      rcases hA with hA | hA
      · rw [hu] at hA; exact absurd hA (by simp)
      · exact absurd hA hn
  · constructor
    · simp [runBacktest, if_neg hA, hstocks]
    · intro _ _
      simp [runBacktest, if_neg hA, hstocks]

/-- Witness for claim C6's amended theorem: empty stock list with a
non-empty name and a user present. -/
theorem claim_C6_amended_witness :
    (runBacktest pfZero (fun _ => 0.5) true pNoStocks).1 = [] ∧
    runBacktest pfZero (fun _ => 0.5) true pNoStocks =
      ([], Except.error RunError.noStocksSelected) := by
  have h := claim_C6_amended pfZero (fun _ => 0.5) true pNoStocks (by simp [pNoStocks, pWeek])
  exact ⟨h.1, h.2 rfl (by simp [pNoStocks, pWeek])⟩

lemma simLoop_map_benchmark (pf : ℚ → ℚ → ℚ) (rng : ℕ → ℚ) (ic : ℚ) (startDate : ℤ) :
    ∀ (c k : ℕ) (pv : ℚ),
      (simLoop pf rng ic startDate k c pv).map (fun pt => pt.benchmark) =
        (List.range c).map
          (fun j => round (ic * jsPowFin pf 1.08 ((7 * ((k + j : ℕ) : ℚ)) / 365))) := by
  intro c
  induction c with
  | zero => intro k pv; simp [simLoop]
  | succ c ih =>
      intro k pv
      rw [List.range_succ_eq_map]
      simp only [simLoop, List.map_cons, List.map_map, List.cons.injEq]
      constructor
      · norm_num
      · rw [ih (k + 1)]
        apply List.map_congr_left
        intro j _
        have hkj : (k + 1) + j = k + (j + 1) := by omega
        simp only [Function.comp_apply]
        rw [hkj]

lemma genMock_map_benchmark (pf : ℚ → ℚ → ℚ) (rng : ℕ → ℚ) (p : BacktestParams) :
    (generateMockBacktestResults pf rng p).map
        (fun r => r.performanceData.map (fun pt => pt.benchmark)) =
      if weeklyCount (backtestDays p) = 0 then none
      else
        some ((List.range (weeklyCount (backtestDays p))).map
          (fun k : ℕ => round (p.initialCapital * jsPowFin pf 1.08 ((7 * (k : ℚ)) / 365)))) := by
  rcases hn : weeklyCount (backtestDays p) with _ | m
  · have hps : perfSeries pf rng p = [] := by simp [perfSeries, hn, simLoop]
    have hlast : (perfSeries pf rng p).getLast? = none := by rw [hps]; rfl
    simp [generateMockBacktestResults, hlast]
  · have hne : perfSeries pf rng p ≠ [] := by
      simp [perfSeries, hn, simLoop]
    obtain ⟨y, hy⟩ := Option.isSome_iff_exists.mp (List.getLast?_isSome.mpr hne)
    rw [generateMock_eq_some pf rng p hy]
    rw [if_neg (by simp)]
    show some ((perfSeries pf rng p).map (fun pt => pt.benchmark)) = _
    rw [perfSeries, hn, simLoop_map_benchmark]
    congr 1
    apply List.map_congr_left
    intro j _
    norm_num

/-- Claim C7 as stated is false on its strict-increase conjunct: the
benchmark points are Math.round(initial_capital * 1.08 ^ (i / 365))
(src/unnamed/part_001 line 455), so for a valid parameter set with
initial_capital 1 the rounding collapses consecutive points to the same
integer: the benchmark series of a one-week run is [1, 1], which is not
strictly increasing. -/
theorem claim_C7_counterexample :
    pSmallCap.startDate < pSmallCap.endDate ∧ 0 < pSmallCap.initialCapital ∧
    pSmallCap.stocks ≠ [] ∧
    (generateMockBacktestResults pfBench (fun _ => 0.5) pSmallCap).map
        (fun r => r.performanceData.map (fun pt => pt.benchmark)) = some [1, 1] ∧
    ¬ List.Chain' (fun a b : ℤ => a < b) [1, 1] := by
  refine ⟨by norm_num [pSmallCap, pWeek], by norm_num [pSmallCap, pWeek],
    by simp [pSmallCap, pWeek], ?_, by norm_num [List.chain'_cons]⟩
  rw [genMock_map_benchmark]
  have hc : weeklyCount (backtestDays pSmallCap) = 2 := by
    norm_num [weeklyCount, backtestDays, pSmallCap, pWeek]
    decide
  rw [hc, if_neg (by norm_num)]
  norm_num [List.range_succ, jsPowFin, pfBench, pSmallCap, pWeek, round_eq]

/-- Claim C7 amended: the benchmark series is independent of the random
source — any two runs over the same parameters and host pow yield identical
benchmark values point for point — and the k-th benchmark point equals
round(initial_capital * pow(1.08, 7k / 365)). Strict increase, however, does
not hold for every valid parameter set: rounding can collapse consecutive
points (see the counterexample with initial_capital 1). -/
theorem claim_C7_amended (pf : ℚ → ℚ → ℚ) (rng1 rng2 : ℕ → ℚ) (p : BacktestParams) :
    (generateMockBacktestResults pf rng1 p).map
        (fun r => r.performanceData.map (fun pt => pt.benchmark)) =
      (generateMockBacktestResults pf rng2 p).map
        (fun r => r.performanceData.map (fun pt => pt.benchmark)) ∧
    (generateMockBacktestResults pf rng1 p).map
        (fun r => r.performanceData.map (fun pt => pt.benchmark)) =
      (if weeklyCount (backtestDays p) = 0 then none
       else
        some ((List.range (weeklyCount (backtestDays p))).map
          (fun k : ℕ => round (p.initialCapital * jsPowFin pf 1.08 ((7 * (k : ℚ)) / 365))))) := by
  refine ⟨?_, genMock_map_benchmark pf rng1 p⟩
  rw [genMock_map_benchmark, genMock_map_benchmark]

/-- Claim C9 as stated is false for the dismiss operation of AlertsManager:
its local update (src/src/components/AlertsManager.tsx line 94) removes the
dismissed alert from the component's alert list instead of only setting
is_dismissed, so the list's membership is not preserved there. -/
theorem claim_C9_counterexample :
    alertsManagerDismissLocal [exAlert] "a1" = [] ∧
    exAlert ∈ ([exAlert] : List AlertRow) ∧
    exAlert ∉ alertsManagerDismissLocal [exAlert] "a1" := by
  have h : alertsManagerDismissLocal [exAlert] "a1" = [] := by
    simp [alertsManagerDismissLocal, exAlert]
  exact ⟨h, by simp, by rw [h]; simp⟩

/-- Claim C9 amended: markAsRead (both sites, and the table-level update it
issues) changes only the is_read flag of the alert with the given id — the
length, every other field at every index, and every other alert are
unchanged; the alerts-page dismiss and the table-level dismiss update
likewise change only is_dismissed. The AlertsManager component's local
dismiss, however, removes exactly the alert with that id from its list
(the persistent store still only receives the flag update). -/
theorem claim_C9_amended (alerts : List AlertRow) (alertId : String) :
    (markAsReadUpdate alerts alertId).length = alerts.length ∧
    (dismissAlertUpdate alerts alertId).length = alerts.length ∧
    (∀ i : ℕ, ((markAsReadUpdate alerts alertId)[i]?).map
        (fun a => (a.id, a.trigger_type, a.tier, a.price, a.rationale, a.is_dismissed)) =
      (alerts[i]?).map
        (fun a => (a.id, a.trigger_type, a.tier, a.price, a.rationale, a.is_dismissed))) ∧
    (∀ i : ℕ, ((markAsReadUpdate alerts alertId)[i]?).map (fun a => a.is_read) =
      (alerts[i]?).map (fun a => if a.id = alertId then true else a.is_read)) ∧
    (∀ i : ℕ, ((dismissAlertUpdate alerts alertId)[i]?).map
        (fun a => (a.id, a.trigger_type, a.tier, a.price, a.rationale, a.is_read)) =
      (alerts[i]?).map
        (fun a => (a.id, a.trigger_type, a.tier, a.price, a.rationale, a.is_read))) ∧
    (∀ i : ℕ, ((dismissAlertUpdate alerts alertId)[i]?).map (fun a => a.is_dismissed) =
      (alerts[i]?).map (fun a => if a.id = alertId then true else a.is_dismissed)) ∧
    (∀ a : AlertRow, a ∈ alertsManagerDismissLocal alerts alertId ↔
      a ∈ alerts ∧ a.id ≠ alertId) := by
  refine ⟨by simp [markAsReadUpdate], by simp [dismissAlertUpdate], ?_, ?_, ?_, ?_, ?_⟩
  · intro i
    simp only [markAsReadUpdate, List.getElem?_map, Option.map_map]
    cases alerts[i]? with
    | none => rfl
    | some a =>
        by_cases h : a.id = alertId <;> simp [h]
  · intro i
    simp only [markAsReadUpdate, List.getElem?_map, Option.map_map]
    cases alerts[i]? with
    | none => rfl
    | some a =>
        by_cases h : a.id = alertId <;> simp [h]
  · intro i
    simp only [dismissAlertUpdate, List.getElem?_map, Option.map_map]
    cases alerts[i]? with
    | none => rfl
    | some a =>
        by_cases h : a.id = alertId <;> simp [h]
  · intro i
    simp only [dismissAlertUpdate, List.getElem?_map, Option.map_map]
    cases alerts[i]? with
    | none => rfl
    | some a =>
        by_cases h : a.id = alertId <;> simp [h]
  · intro a
    simp [alertsManagerDismissLocal, List.mem_filter]

/-- Witness for claim C9's amended theorem on a one-alert list. -/
theorem claim_C9_amended_witness :
    (markAsReadUpdate [exAlert] "a1").length = ([exAlert] : List AlertRow).length ∧
    ((markAsReadUpdate [exAlert] "a1")[0]?).map (fun a => a.is_read) = some true ∧
    ((dismissAlertUpdate [exAlert] "a1")[0]?).map (fun a => a.is_dismissed) = some true := by
  have h := claim_C9_amended [exAlert] "a1"
  refine ⟨h.1, ?_, ?_⟩
  · rw [h.2.2.2.1 0]
    simp [exAlert]
  · rw [h.2.2.2.2.2.1 0]
    simp [exAlert]

end GSE
